import Mathlib

/-!
Verification of the China-policy news monitor (`src/news_monitor.py`).

Text values are modelled as `List Char`; Python string containment
(`needle in haystack`) is modelled by `occursIn`; `str.lower()` by
`Char.toLower` mapped over the characters (the inputs of interest are
ASCII).  Python's arbitrary-precision integers are `Nat`/`Int`, and the
one floating-point computation that matters (the weighted sort key) is
modelled by explicit rounding to IEEE-754 binary64 over `ℚ`.
-/

/-- Word characters of Python's regex class `\w` (ASCII): letters, digits
and underscore. -/
def isWordChar (c : Char) : Bool := c.isAlphanum || c = '_'

/-- Whitespace characters of Python's `\s` (ASCII range): space, tab,
newline, carriage return, vertical tab, form feed. -/
def isPySpace (c : Char) : Bool :=
  c = ' ' || c = '\t' || c = '\n' || c = '\r' || c = Char.ofNat 11 || c = Char.ofNat 12

/-- Python `str.lower()` on ASCII text. -/
def lowerText (cs : List Char) : List Char := cs.map Char.toLower

/-- Shorthand turning a string literal into its character list. -/
def strL (s : String) : List Char := s.toList

/-- Tests whether the first list is an initial segment of the second. -/
def leadsWith : List Char → List Char → Bool
  | [], _ => true
  | _ :: _, [] => false
  | a :: as, b :: bs => a == b && leadsWith as bs

/-- Python's substring test `needle in haystack`. -/
def occursIn (needle : List Char) : List Char → Bool
  | [] => leadsWith needle []
  | c :: rest => leadsWith needle (c :: rest) || occursIn needle rest

/-- Specification-level statement that `needle` occurs contiguously inside
`text`. -/
def ContainsSub (needle text : List Char) : Prop :=
  ∃ p q, text = p ++ needle ++ q

/-- Characters matched by the class `[\s\-]` used in the country-pair
patterns of `is_china_policy_related` (line 449). -/
def sepChar (c : Char) : Bool := isPySpace c || c = '-'

/-- Word-boundary test for the position just after a match: end of string or
a non-word character. -/
def tailBoundary : List Char → Bool
  | [] => true
  | c :: _ => !isWordChar c

/-- Word-boundary test for the position just before a match, given the
preceding character (`none` = start of string). -/
def headBoundary : Option Char → Bool
  | none => true
  | some c => !isWordChar c

/-- Matches `[\s\-]b\b`: one separator character, the literal `b`, then a
word boundary. -/
def pairTail (b : List Char) : List Char → Bool
  | [] => false
  | c :: r2 => sepChar c && leadsWith b r2 && tailBoundary (r2.drop b.length)

/-- Matches the body `a[\s\-]b\b` of a country-pair pattern at the head of
`rest`: literal `a`, one separator character, literal `b`, then a word
boundary.  Both `a` and `b` are alphabetic words in every pattern of the
source, so the final `\b` is exactly `tailBoundary`. -/
def pairCore (a b rest : List Char) : Bool :=
  leadsWith a rest && pairTail b (rest.drop a.length)

/-- Scans every start position of the text for a match of
`\ba[\s\-]b\b`, carrying the previous character for the leading word
boundary. -/
def pairScan (a b : List Char) : Option Char → List Char → Bool
  | prev, [] => headBoundary prev && pairCore a b []
  | prev, c :: t => (headBoundary prev && pairCore a b (c :: t)) || pairScan a b (some c) t

/-- Python `re.search(r'\ba[\s\-]b\b', text) is not None`. -/
def pairSearch (a b text : List Char) : Bool := pairScan a b none text

/-- Primary China keywords of `is_china_policy_related`
(src/news_monitor.py lines 408-412). -/
def china_keywords : List (List Char) :=
  [strL "china", strL "chinese", strL "beijing", strL "shanghai",
   strL "guangzhou", strL "shenzhen", strL "xi jinping", strL "ccp",
   strL "communist party", strL "prc", strL "peoples republic",
   strL "mainland china", strL "sino-"]

/-- Policy/economy/tech/military/diplomacy keywords of
`is_china_policy_related` (src/news_monitor.py lines 415-439). -/
def policy_keywords : List (List Char) :=
  [strL "trade", strL "tariff", strL "import", strL "export", strL "economy",
   strL "economic", strL "gdp", strL "investment", strL "market",
   strL "stock", strL "yuan", strL "renminbi", strL "currency",
   strL "inflation", strL "growth", strL "manufacturing", strL "supply chain",
   strL "technology", strL "tech", strL "semiconductor", strL "chip",
   strL "ai", strL "artificial intelligence", strL "huawei", strL "tencent",
   strL "alibaba", strL "baidu", strL "bytedance", strL "tiktok",
   strL "electric vehicle", strL "ev", strL "battery", strL "solar",
   strL "renewable", strL "policy", strL "diplomacy", strL "diplomatic",
   strL "foreign policy", strL "sanctions", strL "biden", strL "trump",
   strL "us-china", strL "america", strL "european union", strL "nato",
   strL "g7", strL "g20", strL "wto", strL "world bank", strL "imf",
   strL "taiwan", strL "hong kong", strL "macau", strL "tibet",
   strL "xinjiang", strL "uighur", strL "uyghur", strL "south china sea",
   strL "east china sea", strL "belt and road", strL "bri",
   strL "government", strL "regulation", strL "law", strL "legal",
   strL "court", strL "human rights", strL "democracy", strL "protest",
   strL "covid", strL "pandemic", strL "lockdown", strL "zero covid",
   strL "environment", strL "climate", strL "carbon", strL "emission",
   strL "pollution"]

/-- Country-pair patterns of `is_china_policy_related`
(src/news_monitor.py lines 448-453): each entry `(a, b)` stands for the
regular expression `\ba[\s\-]b\b`. -/
def country_china_patterns : List (List Char × List Char) :=
  [(strL "us", strL "china"), (strL "china", strL "us"),
   (strL "europe", strL "china"), (strL "china", strL "europe"),
   (strL "india", strL "china"), (strL "china", strL "india"),
   (strL "japan", strL "china"), (strL "china", strL "japan")]

/-- Relevance classifier `is_china_policy_related(title, summary)`
(src/news_monitor.py lines 403-457): lower-case the concatenation
`f"{title} {summary}"`, then require a China keyword AND (a policy keyword
OR a country-pair pattern match). -/
def is_china_policy_related (title summary : List Char) : Bool :=
  let text := lowerText (title ++ ' ' :: summary)
  let has_china := china_keywords.any (fun kw => occursIn kw text)
  let has_policy := policy_keywords.any (fun kw => occursIn kw text)
  let has_relation := country_china_patterns.any (fun p => pairSearch p.1 p.2 text)
  has_china && (has_policy || has_relation)

/-- High-importance keywords of `get_rule_based_score`
(src/news_monitor.py line 209). -/
def high_keywords : List (List Char) :=
  [strL "war", strL "conflict", strL "sanctions", strL "trade war",
   strL "military", strL "nuclear", strL "crisis"]

/-- Medium-importance keywords of `get_rule_based_score`
(src/news_monitor.py line 210). -/
def medium_keywords : List (List Char) :=
  [strL "policy", strL "agreement", strL "meeting", strL "summit",
   strL "negotiate", strL "deal"]

/-- Category keyword groups of `get_rule_based_score`
(src/news_monitor.py lines 219-225), in the order the branches test them. -/
def trade_category_keywords : List (List Char) :=
  [strL "trade", strL "tariff", strL "export", strL "import"]

def military_category_keywords : List (List Char) :=
  [strL "military", strL "defense", strL "weapon"]

def tech_category_keywords : List (List Char) :=
  [strL "tech", strL "ai", strL "chip", strL "semiconductor"]

/-- Result record of the rule-based scorer (the dict literal at
src/news_monitor.py lines 228-233, `ai_source` field omitted as constant). -/
structure RuleScore where
  relevance_score : Nat
  importance_score : Nat
  category : String
deriving DecidableEq, Repr

/-- Rule-based scorer `get_rule_based_score(title, summary)`
(src/news_monitor.py lines 204-233). -/
def get_rule_based_score (title summary : List Char) : RuleScore :=
  let text := lowerText (title ++ ' ' :: summary)
  let high_score := 2 * (high_keywords.filter (fun kw => occursIn kw text)).length
  let medium_score := 1 * (medium_keywords.filter (fun kw => occursIn kw text)).length
  let importance := min 10 (5 + high_score + medium_score)
  let category :=
    if trade_category_keywords.any (fun kw => occursIn kw text) then "Trade"
    else if military_category_keywords.any (fun kw => occursIn kw text) then "Military"
    else if tech_category_keywords.any (fun kw => occursIn kw text) then "Technology"
    else "Other"
  { relevance_score := importance, importance_score := importance, category := category }

/-- Numeric value of a decimal digit run. -/
def natOfDigits (ds : List Char) : Nat :=
  ds.foldl (fun acc c => 10 * acc + (c.toNat - '0'.toNat)) 0

/-- Scanner for Python's `re.finditer(r'(\w+)=(\d+)', text)` in
`analyze_article_with_ollama` (src/news_monitor.py line 161): at each
position try a maximal word-character run, an equals sign and a maximal
digit run; on success emit the pair and continue after the match, otherwise
advance one character.  `fuel` bounds the recursion by the text length. -/
def scanScores : Nat → List Char → List (List Char × Nat)
  | 0, _ => []
  | _ + 1, [] => []
  | fuel + 1, c :: t =>
    if isWordChar c then
      let w := (c :: t).takeWhile isWordChar
      match (c :: t).dropWhile isWordChar with
      | '=' :: r2 =>
        let ds := r2.takeWhile Char.isDigit
        if ds.isEmpty then scanScores fuel t
        else (w, natOfDigits ds) :: scanScores fuel (r2.dropWhile Char.isDigit)
      | _ => scanScores fuel t
    else scanScores fuel t

def findScoreMatches (cs : List Char) : List (List Char × Nat) :=
  scanScores cs.length cs

/-- Dictionary update with Python semantics: an existing key keeps its
position and takes the new value, a new key is appended. -/
def dictUpsert (d : List (List Char × Nat)) (k : List Char) (v : Nat) :
    List (List Char × Nat) :=
  if d.any (fun e => e.1 == k) then
    d.map (fun e => if e.1 == k then (k, v) else e)
  else d ++ [(k, v)]

/-- Builds the `scores` dict of `analyze_article_with_ollama`
(src/news_monitor.py lines 160-162) from the regex matches in order. -/
def buildScoresDict (ms : List (List Char × Nat)) : List (List Char × Nat) :=
  ms.foldl (fun d m => dictUpsert d m.1 m.2) []

/-- Python `scores.get(k)`. -/
def dictGet (d : List (List Char × Nat)) (k : List Char) : Option Nat :=
  (d.find? (fun e => e.1 == k)).map (fun e => e.2)

/-- Binary logarithm of a positive natural number by repeated halving; the
fuel argument only bounds the recursion (128 covers every magnitude in
this development). -/
def natLog2F : Nat → Nat → Nat
  | 0, _ => 0
  | fuel + 1, n => if n ≤ 1 then 0 else natLog2F fuel (n / 2) + 1

/-- Tests `2^e * d ≤ n` with integer arithmetic only. -/
def dyadicLe (d n : Nat) (e : Int) : Bool :=
  match e with
  | .ofNat k => decide (d * 2 ^ k ≤ n)
  | .negSucc k => decide (d ≤ n * 2 ^ (k + 1))

/-- Rounding of the non-negative rational `n / d` to the nearest IEEE-754
binary64 value (round to nearest, ties to even), returned exactly as a
rational.  The exponent `e` satisfies `2^e ≤ n/d < 2^(e+1)`; the value is
scaled by `2^(52-e)` and the scaled quotient is rounded half-to-even.
Subnormal and overflow ranges are irrelevant for the magnitudes in this
development. -/
def roundDoubleN (n d : Nat) : ℚ :=
  if n = 0 then 0
  else
    let e0 : Int := (natLog2F 128 n : Int) - (natLog2F 128 d : Int)
    let e : Int := if dyadicLe d n e0 then e0 else e0 - 1
    let s : Int := 52 - e
    let bigN : Nat := match s with | .ofNat k => n * 2 ^ k | .negSucc _ => n
    let bigD : Nat := match s with | .ofNat _ => d | .negSucc k => d * 2 ^ (k + 1)
    let m := bigN / bigD
    let r := bigN % bigD
    let rounded := if 2 * r < bigD then m
      else if bigD < 2 * r then m + 1
      else if m % 2 = 0 then m else m + 1
    match s with
    | .ofNat k => mkRat (Int.ofNat rounded) (2 ^ k)
    | .negSucc k => mkRat (Int.ofNat (rounded * 2 ^ (k + 1))) 1

/-- Rounding of any rational to the nearest binary64 value. -/
def roundDouble (q : ℚ) : ℚ :=
  if q.num < 0 then -(roundDoubleN q.num.natAbs q.den)
  else roundDoubleN q.num.natAbs q.den

/-- Exact product of two rationals by numerator/denominator arithmetic. -/
def mulQ (x y : ℚ) : ℚ := mkRat (x.num * y.num) (x.den * y.den)

/-- Exact sum of two rationals by numerator/denominator arithmetic. -/
def addQ (x y : ℚ) : ℚ :=
  mkRat (x.num * (y.den : Int) + y.num * (x.den : Int)) (x.den * y.den)

/-- Value of the Python literal `0.6` (the nearest binary64 to 3/5). -/
def pyFloat06 : ℚ := roundDouble (mkRat 6 10)

/-- Value of the Python literal `0.4` (the nearest binary64 to 2/5). -/
def pyFloat04 : ℚ := roundDouble (mkRat 4 10)

/-- Python float multiplication: exact product, then one rounding. -/
def pyMul (x y : ℚ) : ℚ := roundDouble (mulQ x y)

/-- Python float addition: exact sum, then one rounding. -/
def pyAdd (x y : ℚ) : ℚ := roundDouble (addQ x y)

/-- Conversion of a Python int to float, as happens in `int * float`. -/
def intToDouble (i : Int) : ℚ := roundDouble (mkRat i 1)

/-- Score record returned by `analyze_article_with_ollama`
(src/news_monitor.py lines 166-170; the constant `source` field omitted).
`relevance_score` is a Python float (an average), modelled exactly in `ℚ`;
`importance_score` is the integer parsed from the response. -/
structure OllamaScore where
  relevance_score : ℚ
  importance_score : Nat
deriving DecidableEq, Repr

/-- Parsing stage of `analyze_article_with_ollama`
(src/news_monitor.py lines 156-170) applied to the model's response text:
collect `name=digits` matches into a dict; if any were found, return
`relevance_score = min(10, max(1, mean))` — the float mean of the values,
modelled as the correctly rounded binary64 quotient — and
`importance_score = scores.get('importance', 5)`, else no score. -/
def analyze_article_with_ollama (response : List Char) : Option OllamaScore :=
  let scores := buildScoresDict (findScoreMatches response)
  if scores.isEmpty then none
  else
    some { relevance_score :=
             min 10 (max 1
               (roundDouble (mkRat ((scores.map (fun e => e.2)).sum : Int) scores.length))),
           importance_score := (dictGet scores (strL "importance")).getD 5 }

/-- Shape of a parsed persistence file for `load_processed_articles`: a JSON
array of strings (the saved link list), or a JSON value `set(...)` cannot
iterate (e.g. a number). -/
inductive PyJson where
  | arr (items : List String)
  | nonIterable
deriving DecidableEq, Repr

/-- State of `processed_articles.json` on disk: missing, present but not
valid JSON (`parsed = none`), or present with a parsed value. -/
inductive FileState where
  | missing
  | present (parsed : Option PyJson)
deriving DecidableEq, Repr

/-- Exceptions the body of `load_processed_articles` can raise. -/
inductive PyError where
  | fileNotFound
  | jsonDecodeError
  | typeError
deriving DecidableEq, Repr

/-- Body of the `try` block of `load_processed_articles`
(src/news_monitor.py lines 238-239): `open` raises on a missing file,
`json.load` raises on invalid JSON, `set(...)` raises on a non-iterable
value, otherwise the de-duplicated list is the set. -/
def readProcessedFile : FileState → Except PyError (List String)
  | .missing => .error .fileNotFound
  | .present none => .error .jsonDecodeError
  | .present (some .nonIterable) => .error .typeError
  | .present (some (.arr xs)) => .ok xs.eraseDups

/-- Loader `load_processed_articles()` (src/news_monitor.py lines 235-241):
the single `except` clause catches only `FileNotFoundError` (line 240);
every other exception propagates. -/
def load_processed_articles (fs : FileState) : Except PyError (List String) :=
  match readProcessedFile fs with
  | .ok v => .ok v
  | .error .fileNotFound => .ok []
  | .error e => .error e

/-- Feed entry date fields as `fetch_news` sees them
(src/news_monitor.py lines 342-358).  For each field, `none` means the
attribute is absent or falsy, `some none` means it is present but the
conversion (`datetime(*...)` or `date_parser.parse`) raises, and
`some (some t)` means it yields the timestamp `t`. -/
structure FeedEntry where
  published_parsed : Option (Option Int)
  updated_parsed : Option (Option Int)
  created_parsed : Option (Option Int)
  published : Option (Option Int)
  updated : Option (Option Int)
  created : Option (Option Int)
deriving DecidableEq, Repr

/-- First date field that is present and converts without raising,
mirroring the `for date_field in [...]` loops with their
`try/except: continue` bodies. -/
def firstParsedDate : List (Option (Option Int)) → Option Int
  | [] => none
  | some (some t) :: _ => some t
  | _ :: rest => firstParsedDate rest

/-- Publication-date resolution of `fetch_news` for one entry
(src/news_monitor.py lines 339-358): the three `*_parsed` fields first,
then — only when dateutil imported — the three string fields. -/
def selectPubDate (hasDateutil : Bool) (e : FeedEntry) : Option Int :=
  match firstParsedDate [e.published_parsed, e.updated_parsed, e.created_parsed] with
  | some t => some t
  | none =>
    if hasDateutil then firstParsedDate [e.published, e.updated, e.created]
    else none

/-- Inclusion test of `fetch_news` for one entry
(src/news_monitor.py line 361): `if pub_date and pub_date >= cutoff_date`.
An entry whose date could not be resolved is not included. -/
def entryIncluded (hasDateutil : Bool) (cutoff : Int) (e : FeedEntry) : Bool :=
  match selectPubDate hasDateutil e with
  | some d => decide (cutoff ≤ d)
  | none => false

/-- Replacement pass of `re.sub(r'<[^>]+>', ' ', text)`
(src/news_monitor.py line 264): at each `<`, if one or more non-`>`
characters are followed by `>`, the whole span becomes one space and
scanning resumes after it; otherwise the character is kept.  `fuel` bounds
the recursion by the text length. -/
def stripTagsGo : Nat → List Char → List Char
  | 0, cs => cs
  | _ + 1, [] => []
  | fuel + 1, c :: t =>
    if c = '<' then
      match t.dropWhile (fun d => !(d = '>')) with
      | '>' :: rest =>
        if (t.takeWhile (fun d => !(d = '>'))).isEmpty then c :: stripTagsGo fuel t
        else ' ' :: stripTagsGo fuel rest
      | _ => c :: stripTagsGo fuel t
    else c :: stripTagsGo fuel t

def stripTags (cs : List Char) : List Char := stripTagsGo cs.length cs

/-- Replacement pass of `re.sub(r'\s+', ' ', text)`
(src/news_monitor.py line 265): every maximal whitespace run becomes one
space.  The boolean carries whether the previous character was whitespace. -/
def collapseWsGo : Bool → List Char → List Char
  | _, [] => []
  | prevSpace, c :: t =>
    if isPySpace c then
      if prevSpace then collapseWsGo true t else ' ' :: collapseWsGo true t
    else c :: collapseWsGo false t

def collapseWs (cs : List Char) : List Char := collapseWsGo false cs

/-- Python `text.split('.')`. -/
def splitOnDot : List Char → List (List Char)
  | [] => [[]]
  | c :: t =>
    if c = '.' then [] :: splitOnDot t
    else
      match splitOnDot t with
      | [] => [[c]]
      | l :: ls => (c :: l) :: ls

/-- Python `line.strip()`: drop leading and trailing whitespace. -/
def pyStrip (cs : List Char) : List Char :=
  ((cs.dropWhile isPySpace).reverse.dropWhile isPySpace).reverse

/-- Boilerplate terms filtered out of candidate sentences
(src/news_monitor.py lines 272-273). -/
def boilerplate_terms : List (List Char) :=
  [strL "cookie", strL "subscribe", strL "newsletter", strL "advertisement",
   strL "javascript"]

/-- Sentence filter of `fetch_full_article_content`
(src/news_monitor.py line 272): keep a stripped line when it is longer than
100 characters and its lower-cased form contains no boilerplate term. -/
def keepLine (l : List Char) : Bool :=
  decide (100 < l.length) &&
    !(boilerplate_terms.any (fun kw => occursIn kw (lowerText l)))

/-- Text-processing stage of `fetch_full_article_content`
(src/news_monitor.py lines 259-277) applied to the fetched page text:
strip tag spans, collapse whitespace, split on periods, keep up to the
first 10 surviving sentences joined by `". "`, truncate to `max_chars`
(the caller at line 369 uses the default `max_chars = 2000`); an empty
result is `None`. -/
def fetch_full_article_content (text : List Char) (max_chars : Nat := 2000) :
    Option (List Char) :=
  let t1 := collapseWs (stripTags text)
  let paragraphs := ((splitOnDot t1).map pyStrip).filter keepLine
  let content := List.intercalate (strL ". ") (paragraphs.take 10)
  if content.isEmpty then none else some (content.take max_chars)

/-- Tests whether the cleaner output exists and contains the character. -/
def cleanerOutputHas (o : Option (List Char)) (c : Char) : Bool :=
  match o with
  | none => false
  | some s => s.contains c

/-- Article record as the pipeline sees it after scoring: the fields the
sort key and the deduplication read.  A `none` score models a missing dict
key, read back by `.get(..., 0)`. -/
structure Article where
  title : String
  link : String
  summary : String
  importance_score : Option Int
  relevance_score : Option Int
deriving DecidableEq, Repr

/-- Sort key of `filter_and_analyze_articles`
(src/news_monitor.py lines 484-487):
`x.get('importance_score', 0) * 0.6 + x.get('relevance_score', 0) * 0.4`
evaluated in binary64 arithmetic. -/
def weightedKey (a : Article) : ℚ :=
  pyAdd (pyMul (intToDouble (a.importance_score.getD 0)) pyFloat06)
        (pyMul (intToDouble (a.relevance_score.getD 0)) pyFloat04)

/-- Weighted score as the specification writes it: the exact rational
`0.6 × importance + 0.4 × relevance`. -/
def exactWeighted (a : Article) : ℚ :=
  (6 / 10) * ((a.importance_score.getD 0 : Int) : ℚ) +
    (4 / 10) * ((a.relevance_score.getD 0 : Int) : ℚ)

/-- Insertion into a descending-sorted list, placing the new element before
the first element whose key does not exceed its own; together with
`sortStableDesc` this reproduces the unique stable descending order of
Python's `list.sort(key=..., reverse=True)`. -/
def insertDesc (key : Article → ℚ) (a : Article) : List Article → List Article
  | [] => [a]
  | b :: t => if key b ≤ key a then a :: b :: t else b :: insertDesc key a t

/-- Stable descending sort by a rational key. -/
def sortStableDesc (key : Article → ℚ) : List Article → List Article
  | [] => []
  | a :: t => insertDesc key a (sortStableDesc key t)

/-- Scoring update of one article: `article.update(...)` with the analysis
outcome for its title and summary.  The analysis itself (Groq, Ollama,
HuggingFace or the rule fallback of `get_ai_analysis`) is the external
collaborator, passed in as a function. -/
def applyAnalysis (analysis : String → String → Option Int × Option Int)
    (a : Article) : Article :=
  let r := analysis a.title a.summary
  { a with importance_score := r.1, relevance_score := r.2 }

/-- Surviving articles of `filter_and_analyze_articles` in feed order
(src/news_monitor.py lines 465-481): the articles the classifier accepts,
each updated with its analysis outcome. -/
def scoredSurvivors (analysis : String → String → Option Int × Option Int)
    (articles : List Article) : List Article :=
  (articles.filter (fun a =>
    is_china_policy_related (strL a.title) (strL a.summary))).map
    (applyAnalysis analysis)

/-- Pipeline stage `filter_and_analyze_articles(articles)`
(src/news_monitor.py lines 459-489): keep the articles the classifier
accepts, score each, then sort by the weighted key, descending and stable. -/
def filter_and_analyze_articles
    (analysis : String → String → Option Int × Option Int)
    (articles : List Article) : List Article :=
  sortStableDesc weightedKey (scoredSurvivors analysis articles)

/-- Deduplication loop of `main` (src/news_monitor.py lines 662-667): walk
the scored articles in order; an article whose link is already in the
processed set is dropped, otherwise it is kept and its link added.
Returns the new articles and the final processed set. -/
def dedupNewArticles (processed : List String) :
    List Article → List Article × List String
  | [] => ([], processed)
  | a :: rest =>
    if a.link ∈ processed then dedupNewArticles processed rest
    else
      (a :: (dedupNewArticles (a.link :: processed) rest).1,
        (dedupNewArticles (a.link :: processed) rest).2)

/-- Outcome of `send_email` (src/news_monitor.py lines 491-631): missing
credentials return early with a log line (lines 497-499), and the SMTP
interaction is wrapped in `try/except`, so the function always returns. -/
inductive EmailOutcome where
  | skippedNoCredentials
  | sent
  | failedLogged
deriving DecidableEq, Repr

/-- Model of `send_email`: the SMTP success is an external parameter; no
path raises. -/
def send_email (credentialsPresent smtpOk : Bool) : EmailOutcome :=
  if credentialsPresent then (if smtpOk then .sent else .failedLogged)
  else .skippedNoCredentials

/-- Observable result of the tail of `main`
(src/news_monitor.py lines 662-675). -/
structure MainResult where
  emailOutcome : EmailOutcome
  emailedArticles : List Article
  savedLinks : List String
deriving DecidableEq, Repr

/-- Tail of `main` (src/news_monitor.py lines 662-675): deduplicate against
the loaded processed set, hand the new articles to `send_email`, then save
the updated processed set; the save is unconditional because `send_email`
returns on every path. -/
def mainFinish (processed : List String) (chinaArticles : List Article)
    (credentialsPresent smtpOk : Bool) : MainResult :=
  let r := dedupNewArticles processed chinaArticles
  { emailOutcome := send_email credentialsPresent smtpOk,
    emailedArticles := r.1,
    savedLinks := r.2 }

/-- Specification-level right word boundary: end of text or a non-word
character next. -/
def RightBoundaryP (post : List Char) : Prop :=
  post = [] ∨ ∃ c rest, post = c :: rest ∧ isWordChar c = false

/-- Specification-level left word boundary: start of text or a non-word
character just before. -/
def LeftBoundaryP (pre : List Char) : Prop :=
  pre = [] ∨ ∃ m d, pre = m ++ [d] ∧ isWordChar d = false

/-- Boundary condition seen by `pairScan` relative to its carried previous
character: either nothing of the text has been consumed and the carried
character is a boundary, or the consumed part ends in a non-word
character. -/
def ScanBoundaryP (prev : Option Char) (mid : List Char) : Prop :=
  (mid = [] ∧ headBoundary prev = true) ∨
    ∃ m d, mid = m ++ [d] ∧ isWordChar d = false

/-- Specification-level reading of the regular expression
`\ba[\s\-]b\b` matching somewhere in `text`. -/
def PairMatch (a b text : List Char) : Prop :=
  ∃ pre c post, text = pre ++ a ++ c :: b ++ post ∧ sepChar c = true ∧
    LeftBoundaryP pre ∧ RightBoundaryP post

/-- Analysis outcome used in the weighted-tie example: scores 2/0 for the
first title and 0/3 for the second, both with exact weighted score 6/5. -/
def tieAnalysis : String → String → Option Int × Option Int :=
  fun t _ => if t = "China trade A" then (some 2, some 0) else (some 0, some 3)

def tieArticleA : Article :=
  { title := "China trade A", link := "http://a", summary := "",
    importance_score := none, relevance_score := none }

def tieArticleB : Article :=
  { title := "China trade B", link := "http://b", summary := "",
    importance_score := none, relevance_score := none }

/-! Helper lemmas about the string matchers. -/

theorem leadsWith_iff (n : List Char) : ∀ h, leadsWith n h = true ↔ ∃ t, h = n ++ t := by
  induction n with
  | nil => intro h; simp [leadsWith]
  | cons a as ih =>
    intro h
    cases h with
    | nil => simp [leadsWith]
    | cons b bs =>
      simp only [leadsWith, Bool.and_eq_true, beq_iff_eq, List.cons_append]
      constructor
      · rintro ⟨rfl, h2⟩
        obtain ⟨t, rfl⟩ := (ih bs).mp h2
        exact ⟨t, rfl⟩
      · rintro ⟨t, ht⟩
        injection ht with h1 h2
        exact ⟨h1.symm, (ih bs).mpr ⟨t, h2⟩⟩

theorem occursIn_iff (n : List Char) : ∀ h, occursIn n h = true ↔ ContainsSub n h := by
  intro h
  induction h with
  | nil =>
    simp only [occursIn, leadsWith_iff, ContainsSub]
    constructor
    · rintro ⟨t, ht⟩
      exact ⟨[], t, by simpa using ht⟩
    · rintro ⟨p, q, hpq⟩
      have hlen := congrArg List.length hpq
      simp only [List.length_nil, List.length_append] at hlen
      have hn : n.length = 0 := by omega
      exact ⟨[], by simp [List.length_eq_zero.mp hn]⟩
  | cons c rest ih =>
    simp only [occursIn, Bool.or_eq_true]
    constructor
    · rintro (hl | ho)
      · obtain ⟨t, ht⟩ := (leadsWith_iff n _).mp hl
        exact ⟨[], t, by simpa using ht⟩
      · obtain ⟨p, q, hpq⟩ := ih.mp ho
        exact ⟨c :: p, q, by simp [hpq]⟩
    · rintro ⟨p, q, hpq⟩
      cases p with
      | nil =>
        exact Or.inl ((leadsWith_iff n _).mpr ⟨q, by simpa using hpq⟩)
      | cons c' p' =>
        injection hpq with h1 h2
        exact Or.inr (ih.mpr ⟨p', q, h2⟩)

theorem tailBoundary_iff (post : List Char) :
    tailBoundary post = true ↔ RightBoundaryP post := by
  cases post with
  | nil => simp [tailBoundary, RightBoundaryP]
  | cons c rest => simp [tailBoundary, RightBoundaryP]

theorem pairTail_iff (b r : List Char) :
    pairTail b r = true ↔
      ∃ c post, r = c :: (b ++ post) ∧ sepChar c = true ∧ RightBoundaryP post := by
  cases r with
  | nil =>
    simp only [pairTail]
    constructor
    · intro h; exact absurd h (by simp)
    · rintro ⟨c, post, h, _⟩; exact absurd h (by simp)
  | cons c r2 =>
    simp only [pairTail, Bool.and_eq_true]
    constructor
    · rintro ⟨⟨hc, hb⟩, ht⟩
      obtain ⟨post, rfl⟩ := (leadsWith_iff b r2).mp hb
      rw [List.drop_left] at ht
      exact ⟨c, post, rfl, hc, (tailBoundary_iff post).mp ht⟩
    · rintro ⟨c', post, he, hc, hr⟩
      cases he
      refine ⟨⟨hc, (leadsWith_iff b _).mpr ⟨post, rfl⟩⟩, ?_⟩
      rw [List.drop_left]
      exact (tailBoundary_iff post).mpr hr

theorem pairCore_iff (a b rest : List Char) :
    pairCore a b rest = true ↔
      ∃ c post, rest = a ++ (c :: (b ++ post)) ∧ sepChar c = true ∧ RightBoundaryP post := by
  simp only [pairCore, Bool.and_eq_true]
  constructor
  · rintro ⟨h1, h2⟩
    obtain ⟨t, rfl⟩ := (leadsWith_iff a rest).mp h1
    rw [List.drop_left] at h2
    obtain ⟨c, post, rfl, hc, hr⟩ := (pairTail_iff b t).mp h2
    exact ⟨c, post, rfl, hc, hr⟩
  · rintro ⟨c, post, rfl, hc, hr⟩
    refine ⟨(leadsWith_iff a _).mpr ⟨_, rfl⟩, ?_⟩
    rw [List.drop_left]
    exact (pairTail_iff b _).mpr ⟨c, post, rfl, hc, hr⟩

theorem pairCore_nil (a b : List Char) : pairCore a b [] = false := by
  rcases h : pairCore a b [] with _ | _
  · rfl
  · obtain ⟨c, post, he, _⟩ := (pairCore_iff a b []).mp h
    exact absurd he.symm (by simp)

theorem pairScan_iff (a b : List Char) : ∀ (rest : List Char) (prev : Option Char),
    pairScan a b prev rest = true ↔
      ∃ mid c post, rest = mid ++ (a ++ (c :: (b ++ post))) ∧ sepChar c = true ∧
        ScanBoundaryP prev mid ∧ RightBoundaryP post := by
  intro rest
  induction rest with
  | nil =>
    intro prev
    simp only [pairScan, pairCore_nil, Bool.and_false]
    constructor
    · intro h; exact absurd h (by simp)
    · rintro ⟨mid, c, post, he, -, -, -⟩
      exact absurd (congrArg List.length he) (by simp; omega)
  | cons x t ih =>
    intro prev
    simp only [pairScan, Bool.or_eq_true, Bool.and_eq_true, pairCore_iff, ih (some x)]
    constructor
    · rintro (⟨hb, c, post, he, hc, hr⟩ | ⟨mid, c, post, he, hc, hsb, hr⟩)
      · exact ⟨[], c, post, by simpa using he, hc, Or.inl ⟨rfl, hb⟩, hr⟩
      · refine ⟨x :: mid, c, post, by simp [he], hc, ?_, hr⟩
        rcases hsb with ⟨rfl, hh⟩ | ⟨m, d, rfl, hd⟩
        · exact Or.inr ⟨[], x, rfl, by simpa [headBoundary] using hh⟩
        · exact Or.inr ⟨x :: m, d, rfl, hd⟩
    · rintro ⟨mid, c, post, he, hc, hsb, hr⟩
      cases mid with
      | nil =>
        left
        rcases hsb with ⟨-, hh⟩ | ⟨m, d, hmd, -⟩
        · exact ⟨hh, c, post, by simpa using he, hc, hr⟩
        · exact absurd (congrArg List.length hmd) (by simp)
      | cons x' mid' =>
        right
        rw [List.cons_append] at he
        injection he with h1 h2
        subst h1
        refine ⟨mid', c, post, h2, hc, ?_, hr⟩
        rcases hsb with ⟨hmid, -⟩ | ⟨m, d, hmd, hd⟩
        · exact absurd hmid (by simp)
        · cases m with
          | nil =>
            simp only [List.nil_append] at hmd
            injection hmd with hx hm'
            subst hx
            exact Or.inl ⟨hm'.symm ▸ rfl, by simp [headBoundary, hd]⟩
          | cons y m' =>
            rw [List.cons_append] at hmd
            injection hmd with hy hm'
            exact Or.inr ⟨m', d, hm', hd⟩

theorem pairSearch_iff (a b text : List Char) :
    pairSearch a b text = true ↔ PairMatch a b text := by
  unfold pairSearch PairMatch
  rw [pairScan_iff]
  constructor
  · rintro ⟨mid, c, post, he, hc, hsb, hr⟩
    refine ⟨mid, c, post, by simpa using he, hc, ?_, hr⟩
    rcases hsb with ⟨rfl, -⟩ | ⟨m, d, rfl, hd⟩
    · exact Or.inl rfl
    · exact Or.inr ⟨m, d, rfl, hd⟩
  · rintro ⟨pre, c, post, he, hc, hlb, hr⟩
    refine ⟨pre, c, post, by simpa using he, hc, ?_, hr⟩
    rcases hlb with rfl | ⟨m, d, rfl, hd⟩
    · exact Or.inl ⟨rfl, rfl⟩
    · exact Or.inr ⟨m, d, rfl, hd⟩

/-- C2: `is_china_policy_related(title, summary)` returns true if and only
if the lower-cased concatenation of title and summary contains at least one
China/Hong-Kong entity keyword AND (contains at least one
policy/economy/tech/military/diplomacy keyword OR matches one of the
country-pair regular expressions `\ba[\s\-]b\b`). -/
theorem c2_classifier_conjunctive_gate (title summary : List Char) :
    is_china_policy_related title summary = true ↔
      ((∃ kw ∈ china_keywords, ContainsSub kw (lowerText (title ++ ' ' :: summary))) ∧
        ((∃ kw ∈ policy_keywords, ContainsSub kw (lowerText (title ++ ' ' :: summary))) ∨
          (∃ p ∈ country_china_patterns,
            PairMatch p.1 p.2 (lowerText (title ++ ' ' :: summary))))) := by
  unfold is_china_policy_related
  simp only [Bool.and_eq_true, Bool.or_eq_true, List.any_eq_true, occursIn_iff,
    pairSearch_iff]

/-- C3 counterexample: on the title "Shanghai Disneyland reopens" with
summary "tourists return" the classifier returns `true`, not `false` as
claimed: the policy keyword "ai" occurs as a substring of "shanghai", so
the conjunctive gate passes. -/
theorem c3_counterexample_shanghai_true :
    is_china_policy_related (strL "Shanghai Disneyland reopens")
      (strL "tourists return") = true := by decide

/-- C3 amended: on that input the classifier returns `true`; the gate is
satisfied because "ai" is one of the policy keywords and occurs inside the
lower-cased text (as a substring of "shanghai"), so the policy-keyword side
of the conjunction holds even though no policy topic is present. -/
theorem c3_amended_shanghai_relevant :
    is_china_policy_related (strL "Shanghai Disneyland reopens")
      (strL "tourists return") = true ∧
    strL "ai" ∈ policy_keywords ∧
    occursIn (strL "ai")
      (lowerText (strL "Shanghai Disneyland reopens" ++ ' ' :: strL "tourists return")) =
      true := by
  refine ⟨by decide, by decide, by decide⟩

/-- C4 counterexample: the text "Hong Kong trade deal" contains both
"hong kong" and "trade", yet the rule-based scorer assigns the category
"Trade" — there is no "Hong Kong" category in `get_rule_based_score`, so
the claimed precedence (Hong Kong first) does not hold. -/
theorem c4_counterexample_hong_kong_trade :
    occursIn (strL "hong kong")
      (lowerText (strL "Hong Kong trade deal" ++ ' ' :: strL "")) = true ∧
    occursIn (strL "trade")
      (lowerText (strL "Hong Kong trade deal" ++ ' ' :: strL "")) = true ∧
    (get_rule_based_score (strL "Hong Kong trade deal") (strL "")).category = "Trade" ∧
    "Trade" ≠ "Hong Kong" := by
  refine ⟨by decide, by decide, by decide, by decide⟩

/-- C4 amended: the rule-based scorer has no "Hong Kong" category; its
category is assigned by the first-matching keyword group in the precedence
order Trade > Military > Technology > Other, so any text containing
"trade" — in particular one containing both "hong kong" and "trade" — is
categorized "Trade", and every category is one of the four names. -/
theorem c4_amended_category_precedence :
    (∀ title summary,
        occursIn (strL "trade") (lowerText (title ++ ' ' :: summary)) = true →
        (get_rule_based_score title summary).category = "Trade") ∧
    (∀ title summary,
        (get_rule_based_score title summary).category ∈
          (["Trade", "Military", "Technology", "Other"] : List String)) := by
  constructor
  · intro title summary h
    have hany : trade_category_keywords.any
        (fun kw => occursIn kw (lowerText (title ++ ' ' :: summary))) = true :=
      List.any_eq_true.mpr ⟨strL "trade", by decide, h⟩
    simp only [get_rule_based_score, hany, if_true]
  · intro title summary
    simp only [get_rule_based_score]
    split
    · simp
    · split
      · simp
      · split <;> simp

/-- C5 counterexample: a present file whose content is not valid JSON makes
`load_processed_articles` propagate the decode error — the `except` clause
at line 240 catches only `FileNotFoundError` — so the loader does not
return an empty set on corrupt content. -/
theorem c5_counterexample_corrupt_file_raises :
    load_processed_articles (.present none) = .error .jsonDecodeError := by rfl

/-- C5 amended: a missing persistence file yields the empty set, and a
well-shaped file yields its contents; but corrupt content (invalid JSON)
or wrongly-shaped content (a non-iterable JSON value) raises, because only
`FileNotFoundError` is caught. -/
theorem c5_amended_load_behaviour :
    load_processed_articles .missing = .ok [] ∧
    (∀ xs, load_processed_articles (.present (some (.arr xs))) = .ok xs.eraseDups) ∧
    load_processed_articles (.present none) = .error .jsonDecodeError ∧
    load_processed_articles (.present (some .nonIterable)) = .error .typeError := by
  exact ⟨rfl, fun xs => rfl, rfl, rfl⟩

/-- C6 counterexample: a feed entry none of whose date fields parses is not
included by `fetch_news` — `selectPubDate` yields nothing and the guard
`if pub_date and pub_date >= cutoff_date` fails — rather than being kept
with "now" as its published time. -/
theorem c6_counterexample_dateless_entry_dropped :
    selectPubDate true ⟨none, none, none, none, none, none⟩ = none ∧
    entryIncluded true 0 ⟨none, none, none, none, none, none⟩ = false := by
  exact ⟨rfl, rfl⟩

/-- C6 amended: when no date strategy succeeds for an entry, `fetch_news`
drops the entry: for every cutoff the inclusion test is false, with or
without dateutil. -/
theorem c6_amended_dateless_entry_excluded
    (hasDateutil : Bool) (cutoff : Int) (e : FeedEntry)
    (h : selectPubDate hasDateutil e = none) :
    entryIncluded hasDateutil cutoff e = false := by
  simp only [entryIncluded, h]

/-- C6 amended witness at a concrete entry whose only date fields raise on
conversion. -/
theorem c6_amended_witness :
    entryIncluded false 5 ⟨some none, none, some none, none, none, none⟩ = false :=
  c6_amended_dateless_entry_excluded false 5
    ⟨some none, none, some none, none, none, none⟩ rfl

/-- C1 counterexample: on the Ollama response text
"importance=15, economic=5, global=5" the parser returns a score whose
`importance_score` is 15 — the raw parsed value is not clamped — so not
every Score has `importance_score` in [0,10]. -/
theorem c1_counterexample_ollama_unclamped :
    (analyze_article_with_ollama (strL "importance=15, economic=5, global=5")).map
      (fun s => s.importance_score) = some 15 ∧ ¬(15 ≤ 10) := by
  refine ⟨by decide, by decide⟩

/-- C1 amended: the rule-based scorer always returns importance and
relevance in [0,10] (they are naturals capped at 10), and the Ollama path
clamps `relevance_score` to [1,10]; but the Ollama `importance_score` is
the raw parsed value with default 5 and may exceed 10. -/
theorem c1_amended_score_bounds :
    (∀ title summary,
        (get_rule_based_score title summary).importance_score ≤ 10 ∧
        (get_rule_based_score title summary).relevance_score ≤ 10) ∧
    (∀ response sc, analyze_article_with_ollama response = some sc →
        1 ≤ sc.relevance_score ∧ sc.relevance_score ≤ 10) := by
  constructor
  · intro title summary
    constructor
    · exact Nat.min_le_left 10 _
    · exact Nat.min_le_left 10 _
  · intro response sc h
    simp only [analyze_article_with_ollama] at h
    split at h
    · exact absurd h (by simp)
    · injection h with h'
      subst h'
      exact ⟨le_min (by norm_num) (le_max_left 1 _), min_le_left 10 _⟩

set_option maxRecDepth 40000 in
/-- C7 counterexample: on page text consisting of 120 letters followed by
" > b" the cleaner keeps the stray `>` — the pattern `<[^>]+>` removes only
complete tag spans — so strip output can contain a raw tag delimiter (and
the truncation bound of the stage is 2000, not 800). -/
theorem c7_counterexample_stray_delimiter :
    cleanerOutputHas
      (fetch_full_article_content (List.replicate 120 'a' ++ strL " > b")) '>' = true := by
  decide

/-- C7 amended: the text-processing stage of `fetch_full_article_content`
truncates to at most 2000 characters (the `max_chars` default its caller
uses); complete `<...>` spans are removed but unmatched delimiters can
survive. -/
theorem c7_amended_cleaner_bound (text out : List Char)
    (h : fetch_full_article_content text = some out) : out.length ≤ 2000 := by
  simp only [fetch_full_article_content] at h
  split at h
  · exact absurd h (by simp)
  · injection h with h'
    subst h'
    exact List.length_take_le 2000 _

set_option maxRecDepth 40000 in
/-- C7 amended witness at a concrete page text of 120 letters. -/
theorem c7_amended_witness : (List.replicate 120 'b').length ≤ 2000 :=
  c7_amended_cleaner_bound (List.replicate 120 'b') (List.replicate 120 'b') (by decide)

theorem insertDesc_mem (key : Article → ℚ) (a : Article) :
    ∀ l x, x ∈ insertDesc key a l → x = a ∨ x ∈ l := by
  intro l
  induction l with
  | nil => intro x hx; simpa [insertDesc] using hx
  | cons b t ih =>
    intro x hx
    unfold insertDesc at hx
    split at hx
    · rcases List.mem_cons.mp hx with rfl | hx'
      · exact Or.inl rfl
      · exact Or.inr hx'
    · rcases List.mem_cons.mp hx with rfl | hx'
      · exact Or.inr (List.mem_cons_self _ _)
      · rcases ih x hx' with rfl | hx''
        · exact Or.inl rfl
        · exact Or.inr (List.mem_cons_of_mem b hx'')

theorem insertDesc_pairwise (key : Article → ℚ) (a : Article) :
    ∀ l, List.Pairwise (fun x y => key y ≤ key x) l →
      List.Pairwise (fun x y => key y ≤ key x) (insertDesc key a l) := by
  intro l
  induction l with
  | nil => intro _; simp [insertDesc]
  | cons b t ih =>
    intro h
    rw [List.pairwise_cons] at h
    obtain ⟨hb, ht⟩ := h
    unfold insertDesc
    split
    · next hle =>
      rw [List.pairwise_cons]
      refine ⟨?_, List.pairwise_cons.mpr ⟨hb, ht⟩⟩
      intro x hx
      rcases List.mem_cons.mp hx with rfl | hx'
      · exact hle
      · exact le_trans (hb x hx') hle
    · next hgt =>
      rw [List.pairwise_cons]
      refine ⟨?_, ih ht⟩
      intro x hx
      rcases insertDesc_mem key a t x hx with rfl | hx'
      · exact le_of_not_le hgt
      · exact hb x hx'

theorem sortStableDesc_pairwise (key : Article → ℚ) :
    ∀ l, List.Pairwise (fun x y => key y ≤ key x) (sortStableDesc key l) := by
  intro l
  induction l with
  | nil => simp [sortStableDesc]
  | cons a t ih => exact insertDesc_pairwise key a _ ih

theorem insertDesc_filter (key : Article → ℚ) (a : Article) (q : ℚ) :
    ∀ l, (insertDesc key a l).filter (fun x => decide (key x = q)) =
      if key a = q then a :: l.filter (fun x => decide (key x = q))
      else l.filter (fun x => decide (key x = q)) := by
  intro l
  induction l with
  | nil =>
    simp only [insertDesc]
    by_cases hq : key a = q
    · simp [List.filter_cons, hq]
    · simp [List.filter_cons, hq]
  | cons b t ih =>
    unfold insertDesc
    split
    · next hle => simp [List.filter_cons]
    · next hgt =>
      rw [List.filter_cons, ih]
      by_cases hq : key a = q
      · have hbq : ¬(key b = q) := by
          intro hbq
          exact hgt (le_of_eq (hbq.trans hq.symm))
        simp [hq, hbq, List.filter_cons]
      · simp [hq, List.filter_cons]

theorem sortStableDesc_filter (key : Article → ℚ) (q : ℚ) :
    ∀ l, (sortStableDesc key l).filter (fun x => decide (key x = q)) =
      l.filter (fun x => decide (key x = q)) := by
  intro l
  induction l with
  | nil => rfl
  | cons a t ih =>
    show (insertDesc key a (sortStableDesc key t)).filter _ = _
    rw [insertDesc_filter, ih, List.filter_cons]
    by_cases hq : key a = q
    · simp [hq]
    · simp [hq]

/-- C8 counterexample: the two scored articles (importance 2, relevance 0)
and (importance 0, relevance 3) have equal weighted score
0.6 × 2 + 0.4 × 0 = 1.2 = 0.6 × 0 + 0.4 × 3, yet
`filter_and_analyze_articles` swaps them: the key is computed in binary64
floats where `0*0.6 + 3*0.4` is one ulp larger than `2*0.6 + 0*0.4`, so
the claimed tie-break by feed order does not hold for exact-score ties. -/
theorem c8_counterexample_float_tie_reordered :
    exactWeighted (applyAnalysis tieAnalysis tieArticleA) =
      exactWeighted (applyAnalysis tieAnalysis tieArticleB) ∧
    filter_and_analyze_articles tieAnalysis [tieArticleA, tieArticleB] =
      [applyAnalysis tieAnalysis tieArticleB, applyAnalysis tieAnalysis tieArticleA] := by
  constructor
  · have h1 : applyAnalysis tieAnalysis tieArticleA =
        { title := "China trade A", link := "http://a", summary := "",
          importance_score := some 2, relevance_score := some 0 } := by decide
    have h2 : applyAnalysis tieAnalysis tieArticleB =
        { title := "China trade B", link := "http://b", summary := "",
          importance_score := some 0, relevance_score := some 3 } := by decide
    rw [h1, h2]
    norm_num [exactWeighted]
  · decide

/-- C8 amended: `filter_and_analyze_articles` returns the surviving
articles sorted in descending order of the binary64 weighted key
`importance * 0.6 + relevance * 0.4` as the code computes it, and articles
whose float keys are equal keep their feed order (the filtered subsequence
of any fixed key value is unchanged); exact-rational ties whose float keys
differ may be reordered. -/
theorem c8_amended_stable_sort_by_float_key :
    (∀ analysis articles,
        List.Pairwise (fun x y => weightedKey y ≤ weightedKey x)
          (filter_and_analyze_articles analysis articles)) ∧
    (∀ analysis articles q,
        (filter_and_analyze_articles analysis articles).filter
            (fun a => decide (weightedKey a = q)) =
          (scoredSurvivors analysis articles).filter
            (fun a => decide (weightedKey a = q))) := by
  constructor
  · intro analysis articles
    exact sortStableDesc_pairwise weightedKey _
  · intro analysis articles q
    exact sortStableDesc_filter weightedKey q _

theorem dedupNewArticles_not_mem :
    ∀ (articles : List Article) (processed : List String) (a : Article),
      a ∈ (dedupNewArticles processed articles).1 → a.link ∉ processed := by
  intro articles
  induction articles with
  | nil => intro p a ha; simp [dedupNewArticles] at ha
  | cons b rest ih =>
    intro p a ha
    unfold dedupNewArticles at ha
    split at ha
    · exact ih p a ha
    · next hnb =>
      rcases List.mem_cons.mp ha with rfl | ha'
      · exact hnb
      · intro hmem
        exact ih (b.link :: p) _ ha' (List.mem_cons_of_mem _ hmem)

theorem dedupNewArticles_processed_sub :
    ∀ (articles : List Article) (processed : List String) (x : String),
      x ∈ processed → x ∈ (dedupNewArticles processed articles).2 := by
  intro articles
  induction articles with
  | nil => intro p x hx; exact hx
  | cons b rest ih =>
    intro p x hx
    unfold dedupNewArticles
    split
    · exact ih p x hx
    · exact ih (b.link :: p) x (List.mem_cons_of_mem _ hx)

theorem dedupNewArticles_link_saved :
    ∀ (articles : List Article) (processed : List String) (a : Article),
      a ∈ (dedupNewArticles processed articles).1 →
        a.link ∈ (dedupNewArticles processed articles).2 := by
  intro articles
  induction articles with
  | nil => intro p a ha; simp [dedupNewArticles] at ha
  | cons b rest ih =>
    intro p a ha
    unfold dedupNewArticles at ha ⊢
    split at ha
    · next hb =>
      rw [if_pos hb]
      exact ih p a ha
    · next hnb =>
      rw [if_neg hnb]
      rcases List.mem_cons.mp ha with rfl | ha'
      · exact dedupNewArticles_processed_sub rest (a.link :: p) a.link
          (List.mem_cons_self _ _)
      · exact ih (b.link :: p) a ha'

/-- C9: main's deduplication is keyed by the article link alone — every
article emitted by the dedup loop has a link that was not in the loaded
processed set, so an article whose link is in the processed set is never
re-emitted, whatever its summary or other fields. -/
theorem c9_dedup_keyed_by_link (processed : List String) (articles : List Article) :
    (dedupNewArticles processed articles).1.all
      (fun a => !(decide (a.link ∈ processed))) = true := by
  rw [List.all_eq_true]
  intro a ha
  simpa using dedupNewArticles_not_mem articles processed a ha

/-- C10: the processed set saved at the end of `main` is the same for every
email outcome — credentials absent, send success or logged send failure —
every emailed (new) article's link is in it, and it is exactly the dedup
loop's updated set, which is computed before `send_email` runs. -/
theorem c10_links_saved_regardless_of_email
    (processed : List String) (chinaArticles : List Article)
    (creds1 ok1 creds2 ok2 : Bool) :
    (mainFinish processed chinaArticles creds1 ok1).savedLinks =
      (mainFinish processed chinaArticles creds2 ok2).savedLinks ∧
    (mainFinish processed chinaArticles creds1 ok1).emailedArticles.all
      (fun a => decide (a.link ∈
        (mainFinish processed chinaArticles creds1 ok1).savedLinks)) = true ∧
    (mainFinish processed chinaArticles creds1 ok1).savedLinks =
      (dedupNewArticles processed chinaArticles).2 := by
  refine ⟨rfl, ?_, rfl⟩
  rw [List.all_eq_true]
  intro a ha
  simpa using dedupNewArticles_link_saved chinaArticles processed a ha
